import Mathlib

/-!
Verification of the transport/session layer, tool-catalog cache and schema
mapper of the my-cli-prettier repository, shallowly embedded in Lean.

Sources embedded here:
  - src/mcp/client.ts        (McpClientSession.withConnection)
  - src/mcp/stdio-client.ts  (StdioMcpClient.close, HttpMcpClient.connect)
  - src/config/cache.ts      (getCacheFilePath, isCacheValid, getCachedTools)
  - src/utils/schema-to-options.ts
      (toolToOptionSchema, jsonSchemaPropertyToOptionDef, keyToLabel,
       parseOptionValues)
  - src/commands/ToolCommand.ts
      (DynamicToolCommand.execute result normalization, formatContentAsData)
-/

namespace MyCliPrettier

/-! ## Session lifecycle: McpClientSession.withConnection and client close -/

/-- Semantics of a JavaScript try/finally block, given the outcome of the body
and the outcome of the finalizer: the finalizer always runs, and when the
finalizer itself throws, its error replaces the outcome of the body; otherwise
the outcome of the body stands. -/
def tryFinally {ε α : Type} (body : Except ε α) (finalizer : Except ε Unit) :
    Except ε α :=
  match finalizer with
  | .error e => .error e
  | .ok _ => body

/-- Model of StdioMcpClient.close and HttpMcpClient.close (the two bodies are
identical). When the client is connected (the source checks connected together
with a non-null transport; connected implies the transport is set), the
underlying transport close is attempted inside a try/catch that ignores any
error; afterwards the client is marked disconnected. Returns the outcome the
caller of close observes, paired with whether a transport close was attempted.
The parameter transportCloseOutcome is what the underlying transport.close()
would do if invoked. -/
def clientClose {ε : Type} (connected : Bool)
    (transportCloseOutcome : Except ε Unit) : Except ε Unit × Bool :=
  if connected then
    match transportCloseOutcome with
    | .ok _ => (.ok (), true)
    | .error _ => (.ok (), true)
  else
    (.ok (), false)

/-- Observable calls made by McpClientSession.withConnection, in order. -/
inductive SessionEvent : Type where
  | connectCall
  | operationRun
  | closeCall
deriving DecidableEq

/-- Model of McpClientSession.withConnection: the try-block awaits
client.connect() and then the supplied operation; the finally-block awaits
client.close(). The parameters give the outcomes of connect, of the operation
(consulted only if connect succeeded, since a throwing connect skips the rest
of the try-block), and of close. Returns the overall outcome together with the
ordered trace of calls made. -/
def withConnection {ε α : Type} (connectOutcome : Except ε Unit)
    (opOutcome : Except ε α) (closeOutcome : Except ε Unit) :
    Except ε α × List SessionEvent :=
  match connectOutcome with
  | .error e =>
      (tryFinally (.error e) closeOutcome, [.connectCall, .closeCall])
  | .ok _ =>
      (tryFinally opOutcome closeOutcome,
       [.connectCall, .operationRun, .closeCall])

/-! ## HTTP transport: HttpMcpClient.connect with modern-to-legacy fallback -/

/-- A thrown JavaScript value: either an Error instance carrying its message,
or any other value together with its String() rendering. -/
inductive JsThrown : Type where
  | errObj (message : String)
  | other (display : String)
deriving DecidableEq

/-- Substring test on character lists: true when the pattern occurs as a
contiguous run, mirroring JavaScript String.prototype.includes. -/
def listIncludes (pat : List Char) : List Char → Bool
  | [] => pat.isEmpty
  | c :: rest => pat.isPrefixOf (c :: rest) || listIncludes pat rest

/-- JavaScript String.prototype.includes on strings. -/
def strIncludes (s pat : String) : Bool :=
  listIncludes pat.data s.data

/-- Classification in HttpMcpClient.connect of the streamable-transport error:
it counts as a client error when it is an Error instance whose message contains
the substring written as the digit four (the code tests
message.includes with that one-character string). -/
def isClientError : JsThrown → Bool
  | .errObj message => strIncludes message "4"
  | .other _ => false

/-- The text interpolated into the combined connect error: the message when the
thrown value is an Error instance, its String() rendering otherwise. -/
def jsThrownText : JsThrown → String
  | .errObj message => message
  | .other display => display

/-- The error constructed in HttpMcpClient.connect when the SSE fallback also
fails. Only the streamable error is interpolated; the caught SSE error is not
used. -/
def combinedConnectError (streamableError : JsThrown) : JsThrown :=
  .errObj ("Failed to connect with both Streamable HTTP and SSE: "
    ++ jsThrownText streamableError)

/-- The two HTTP streaming sub-protocols. -/
inductive HttpTransportKind : Type where
  | streamableHttp
  | sse
deriving DecidableEq

/-- Resolved HTTP server configuration consulted by connect: base URL and the
optional header map placed into requestInit. -/
structure HttpConfigModel : Type where
  url : String
  headers : Option (List (String × String))
deriving DecidableEq

/-- One transport connection attempt: which sub-protocol was tried, and the URL
and headers it was constructed with. -/
structure ConnectAttempt : Type where
  kind : HttpTransportKind
  url : String
  headers : Option (List (String × String))
deriving DecidableEq

/-- Model of HttpMcpClient.connect for a not-yet-connected client. The first
attempt constructs a StreamableHTTPClientTransport from the configured URL and
headers; on success the client is connected. If that attempt throws and the
error is classified as a client error, exactly one SSEClientTransport attempt
is made with the same URL and headers: its success connects the client, and its
failure raises the combined error. A non-client-class streamable failure is
rethrown unchanged with no second attempt. The parameters give the outcome each
attempt would have; the result is the surfaced outcome (the connected transport
kind on success) together with the ordered list of attempts actually made. -/
def httpConnect (config : HttpConfigModel)
    (streamableOutcome sseOutcome : Except JsThrown Unit) :
    Except JsThrown HttpTransportKind × List ConnectAttempt :=
  let streamableAttempt : ConnectAttempt :=
    ⟨.streamableHttp, config.url, config.headers⟩
  let sseAttempt : ConnectAttempt := ⟨.sse, config.url, config.headers⟩
  match streamableOutcome with
  | .ok _ => (.ok .streamableHttp, [streamableAttempt])
  | .error streamableError =>
    if isClientError streamableError then
      match sseOutcome with
      | .ok _ => (.ok .sse, [streamableAttempt, sseAttempt])
      | .error _ =>
          (.error (combinedConnectError streamableError),
           [streamableAttempt, sseAttempt])
    else
      (.error streamableError, [streamableAttempt])

/-! ## JavaScript values

The schema mapper copies JavaScript numbers verbatim (defaults, bounds,
parseFloat results) and never does arithmetic on them, so numbers are carried
opaquely: integers exactly, every other number (fractional, NaN, infinities)
as an uninterpreted tag. -/

/-- A JavaScript number as carried around by the schema mapper. -/
inductive JsNumber : Type where
  | int (n : Int)
  | nonInt (tag : String)
deriving DecidableEq

/-- A JavaScript value, as received from the CLI layer or stored as a schema
default. -/
inductive JsVal : Type where
  | undef
  | nullv
  | boolv (b : Bool)
  | numv (n : JsNumber)
  | strv (s : String)
  | arrv (elems : List JsVal)

/-- Number-to-string rendering used by String() on numbers. -/
def jsNumberToString : JsNumber → String
  | .int n => toString n
  | .nonInt tag => tag

mutual

/-- JavaScript String() on a value: fixed renderings for undefined, null and
booleans, the numeric rendering for numbers, identity on strings, and the
comma-join of Array.prototype.toString for arrays. -/
def jsToString : JsVal → String
  | .undef => "undefined"
  | .nullv => "null"
  | .boolv b => cond b "true" "false"
  | .numv n => jsNumberToString n
  | .strv s => s
  | .arrv elems => jsListToString elems

/-- Array.prototype.toString element join: elements separated by commas, with
null and undefined elements rendered as the empty string. -/
def jsListToString : List JsVal → String
  | [] => ""
  | v :: rest =>
    let head := match v with
      | .undef => ""
      | .nullv => ""
      | w => jsToString w
    match rest with
    | [] => head
    | r :: rs => head ++ "," ++ jsListToString (r :: rs)

end

/-! ## Tool model (the Tool shape consumed from the MCP SDK) -/

/-- One property of a JSON-Schema-like input schema, as read by
schema-to-options.ts (interface JsonSchemaProperty there; its unused items
field is omitted). The type field holds either one type name or an array of
type names; defaultVal none stands for an absent default (the source tests
default against undefined, so a present null default counts as supplied). -/
structure JsonSchemaProperty : Type where
  type : Option (String ⊕ List String) := none
  description : Option String := none
  defaultVal : Option JsVal := none
  enum : Option (List String) := none
  minimum : Option JsNumber := none
  maximum : Option JsNumber := none

/-- The inputSchema object of a tool: its properties record (an ordered list
of key/property pairs, as Object.entries enumerates it) and its required list.
An absent or non-object inputSchema is modelled as none at the use site. -/
structure InputSchemaModel : Type where
  properties : Option (List (String × JsonSchemaProperty)) := none
  required : Option (List String) := none

/-- An MCP tool as consumed by this code base. -/
structure ToolModel : Type where
  name : String
  title : Option String := none
  description : Option String := none
  inputSchema : Option InputSchemaModel := none

/-! ## Catalog cache (src/config/cache.ts) -/

/-- Settings consulted by the cache (config/types.ts CliSettings). The TTL is
a millisecond count. -/
structure CliSettings : Type where
  cacheEnabled : Bool
  cacheTtlMs : Int
deriving DecidableEq

/-- Characters kept by the cache file name sanitizer: the regex class of ASCII
letters, digits, underscore and hyphen. -/
def isSafeChar (c : Char) : Bool :=
  (Char.ofNat 97 ≤ c ∧ c ≤ Char.ofNat 122)
  || (Char.ofNat 65 ≤ c ∧ c ≤ Char.ofNat 90)
  || (Char.ofNat 48 ≤ c ∧ c ≤ Char.ofNat 57)
  || c = '_' || c = '-'

/-- One character of serverName.replace: kept when in the safe class, replaced
by an underscore otherwise. -/
def sanitizeChar (c : Char) : Char :=
  if isSafeChar c then c else '_'

/-- The filesystem-safe transform applied to a server name. -/
def sanitizeName (s : String) : String :=
  ⟨s.data.map sanitizeChar⟩

/-- Model of getCacheDir (config/loader.ts): the cache subdirectory of the
application config directory, which is supplied by the environment and is a
parameter here. -/
def getCacheDir (configDir : String) : String :=
  configDir ++ "/cache"

/-- Model of getCacheFilePath: the sanitized server name with a .json suffix,
joined onto the cache directory. -/
def getCacheFilePath (configDir serverName : String) : String :=
  getCacheDir configDir ++ "/" ++ sanitizeName serverName ++ ".json"

/-- Parsed shape of a persisted cache file, abstracting JSON.parse of the file
text plus the subsequent field accesses: parseThrows when JSON.parse rejects
the text; parsedNull when the text parses to the JSON value null, on which
reading .cachedAt throws a TypeError (caught by the same catch block); and
parsedObj otherwise, with cachedAt the numeric value of the cachedAt field
(none when the field is absent or not a number, in which case the subtraction
now minus cachedAt evaluates to NaN and every comparison on it is false) and
tools the tools field (none when absent, as the unvalidated cast leaves it
undefined). -/
inductive CacheFileContent : Type where
  | parseThrows
  | parsedNull
  | parsedObj (cachedAt : Option Int) (tools : Option (List ToolModel))

/-- The cache directory portion of the filesystem: file path to parsed
content, none for a missing file. -/
def FileSystem : Type := String → Option CacheFileContent

/-- Effect of unlinkSync on the filesystem model. -/
def fsRemove (fs : FileSystem) (path : String) : FileSystem :=
  fun p => if p = path then none else fs p

/-- Model of isCacheValid: now minus cachedAt is below the TTL. Date.now() is
the now parameter; a cachedAt of none stands for the NaN subtraction, on which
the comparison is false. -/
def isCacheValid (cachedAt : Option Int) (ttlMs now : Int) : Bool :=
  match cachedAt with
  | some t => now - t < ttlMs
  | none => false

/-- Model of getCachedTools. Returns undefined (none) at once when caching is
disabled; then a missing file is a miss; an unparsable file or one whose field
access throws lands in the catch block, which unlinks the file (ignoring
unlink errors) and reports a miss; an entry failing the TTL check is unlinked
and reported a miss; otherwise the tools field is returned as is, with no
deletion, even when that field is absent. The function is total: no outcome is
an exception. Result: the returned value paired with the filesystem after any
deletion. -/
def getCachedTools (settings : CliSettings) (configDir : String) (now : Int)
    (fs : FileSystem) (serverName : String) :
    Option (List ToolModel) × FileSystem :=
  if settings.cacheEnabled = false then
    (none, fs)
  else
    let cachePath := getCacheFilePath configDir serverName
    match fs cachePath with
    | none => (none, fs)
    | some .parseThrows => (none, fsRemove fs cachePath)
    | some .parsedNull => (none, fsRemove fs cachePath)
    | some (.parsedObj cachedAt tools) =>
      if isCacheValid cachedAt settings.cacheTtlMs now = false then
        (none, fsRemove fs cachePath)
      else
        (tools, fs)

/-- The persisted tools used by the cache witnesses. -/
def toolsAlpha : List ToolModel := [{ name := "opA" }]

/-- A filesystem holding one well-formed entry for server alpha captured at
time zero. -/
def fsAlpha : FileSystem := fun p =>
  if p = getCacheFilePath "cfg" "alpha" then
    some (.parsedObj (some 0) (some toolsAlpha))
  else none

/-- C4 counterexample: a persisted entry that parses to an object carrying a
fresh numeric cachedAt but no tools field (a structurally invalid entry for
the CachedToolData shape, for example a file whose JSON text has only a
cachedAt member). getCachedTools reports a miss on it, yet the file is still
present afterwards: the entry is not deleted, contrary to the claim. -/
def fsMissingTools : FileSystem := fun p =>
  if p = getCacheFilePath "cfg" "alpha" then some (.parsedObj (some 0) none)
  else none

/-- A filesystem holding one unparsable entry for server alpha. -/
def fsCorruptAlpha : FileSystem := fun p =>
  if p = getCacheFilePath "cfg" "alpha" then some .parseThrows else none

/-! ## Schema mapper (src/utils/schema-to-options.ts) -/

/-- The semantic type of a terminatui option. -/
inductive OptionType : Type where
  | string
  | number
  | boolean
  | array
deriving DecidableEq

/-- A terminatui OptionDef as populated by jsonSchemaPropertyToOptionDef.
defaultVal models the field the source writes as default (none when the field
was never assigned); enum, min, max and label are likewise none until
assigned. -/
structure OptionDef : Type where
  type : OptionType
  description : String
  required : Bool
  order : Nat
  defaultVal : Option JsVal := none
  enum : Option (List String) := none
  min : Option JsNumber := none
  max : Option JsNumber := none
  label : Option String := none

/-- The underscore-to-space replacement in keyToLabel. -/
def underscoreToSpace (c : Char) : Char :=
  if c = '_' then ' ' else c

/-- The camelCase split in keyToLabel: a space is inserted between a lowercase
letter and the uppercase letter that follows it. -/
def splitCamel : List Char → List Char
  | [] => []
  | [c] => [c]
  | a :: b :: rest =>
    if a.isLower && b.isUpper then a :: ' ' :: splitCamel (b :: rest)
    else a :: splitCamel (b :: rest)

/-- The word-capitalization pass in keyToLabel: a word character (ASCII letter,
digit or underscore) is uppercased exactly when the previous character was not
a word character. The flag records whether the previous character was one. -/
def capitalizeWords : Bool → List Char → List Char
  | _, [] => []
  | prevWord, c :: rest =>
    let isWord := c.isAlphanum || c = '_'
    if isWord && !prevWord then
      c.toUpper :: capitalizeWords true rest
    else
      c :: capitalizeWords isWord rest

/-- Model of keyToLabel: underscores become spaces, camelCase boundaries get a
space, then the first letter of each word is capitalized. -/
def keyToLabel (key : String) : String :=
  ⟨capitalizeWords false (splitCamel (key.data.map underscoreToSpace))⟩

/-- Model of jsonSchemaPropertyToOptionDef. The declared type is reduced to one
type name (the first element when an array of names was declared; indexing an
empty array yields undefined), mapped onto the option type with string as the
catch-all; the description falls back to a generated one when absent or empty
(JavaScript or-falsiness); a supplied default is copied and forces required to
false; a non-empty declared enum is copied; numeric bounds are copied for
numeric options; the label is derived from the key. The source declares the
return type nullable but never returns null, so the model returns the record
directly. -/
def jsonSchemaPropertyToOptionDef (key : String) (prop : JsonSchemaProperty)
    (isRequired : Bool) (order : Nat) : OptionDef :=
  let jsonType : Option String :=
    match prop.type with
    | some (.inr names) => names.head?
    | some (.inl name) => some name
    | none => none
  let type : OptionType :=
    match jsonType with
    | some "string" => .string
    | some "number" => .number
    | some "integer" => .number
    | some "boolean" => .boolean
    | some "array" => .array
    | _ => .string
  let base : OptionDef :=
    { type := type
      description :=
        match prop.description with
        | some d => if d = "" then "The " ++ key ++ " parameter" else d
        | none => "The " ++ key ++ " parameter"
      required := isRequired
      order := order }
  let afterDefault : OptionDef :=
    match prop.defaultVal with
    | some d => { base with defaultVal := some d, required := false }
    | none => base
  let afterEnum : OptionDef :=
    match prop.enum with
    | some vals =>
      if vals.length > 0 then { afterDefault with enum := some vals }
      else afterDefault
    | none => afterDefault
  let afterMin : OptionDef :=
    if type = .number then
      match prop.minimum with
      | some m => { afterEnum with min := some m }
      | none => afterEnum
    else afterEnum
  let afterMax : OptionDef :=
    if type = .number then
      match prop.maximum with
      | some m => { afterMin with max := some m }
      | none => afterMin
    else afterMin
  { afterMax with label := some (keyToLabel key) }

/-- Map with a running index, mirroring the order counter incremented once per
property in the toolToOptionSchema loop. -/
def mapWithIndex {α β : Type} (f : Nat → α → β) : Nat → List α → List β
  | _, [] => []
  | i, a :: rest => f i a :: mapWithIndex f (i + 1) rest

/-- Model of toolToOptionSchema: an absent (or, in the source, non-object)
inputSchema or an absent properties record yields the empty schema; otherwise
every property, in enumeration order, is converted with its position as order
and with required-ness read from membership in the required list (the source
wraps that list in a Set; membership is the same). The source guards on the
converted OptionDef being non-null, which it always is. -/
def toolToOptionSchema (tool : ToolModel) : List (String × OptionDef) :=
  match tool.inputSchema with
  | none => []
  | some inputSchema =>
    match inputSchema.properties with
    | none => []
    | some properties =>
      let requiredList := inputSchema.required.getD []
      mapWithIndex
        (fun order kp =>
          (kp.1,
           jsonSchemaPropertyToOptionDef kp.1 kp.2
             (requiredList.contains kp.1) order))
        0 properties

/-- The tool of the testable-properties scenario: one numeric property with a
default of five, also listed as required. -/
def toolWithDefault : ToolModel :=
  { name := "demo"
    inputSchema := some
      { properties := some
          [("count",
            { type := some (.inl "number"), defaultVal := some (.numv (.int 5)) })]
        required := some ["count"] } }

/-- The per-type coercion switch of parseOptionValues, applied to a value
already known not to be undefined or null. parseFloat is the JavaScript
runtime primitive and is a parameter. For number, a value already a number is
kept, anything else goes through parseFloat of its String() rendering; for
boolean, a boolean is kept and anything else is compared by strict equality
against the string literals true and 1; for array, an array is kept and
anything else is the comma-split of its String() rendering with each piece
trimmed; the default branch (string and unrecognized types) passes the value
through. -/
def convertOptionValue (parseFloat : String → JsNumber) (type : OptionType)
    (v : JsVal) : JsVal :=
  match type with
  | .number =>
    match v with
    | .numv _ => v
    | _ => .numv (parseFloat (jsToString v))
  | .boolean =>
    match v with
    | .boolv _ => v
    | .strv s => .boolv (s == "true" || s == "1")
    | _ => .boolv false
  | .array =>
    match v with
    | .arrv _ => v
    | _ => .arrv (((jsToString v).splitOn ",").map fun s => .strv s.trim)
  | .string => v

/-- Model of parseOptionValues: the supplied entries are walked in order; an
entry whose value is undefined or null is skipped entirely; every other entry
is emitted under its key, coerced by the schema entry for that key when one
exists and passed through verbatim otherwise. -/
def parseOptionValues (parseFloat : String → JsNumber)
    (schema : List (String × OptionDef)) :
    List (String × JsVal) → List (String × JsVal)
  | [] => []
  | (key, value) :: rest =>
    match value with
    | .undef => parseOptionValues parseFloat schema rest
    | .nullv => parseOptionValues parseFloat schema rest
    | v =>
      let converted :=
        match List.lookup key schema with
        | none => v
        | some od => convertOptionValue parseFloat od.type v
      (key, converted) :: parseOptionValues parseFloat schema rest

/-! ## Result normalization (src/commands/ToolCommand.ts) -/

/-- A call-result content item as handled by formatContentAsData: its type tag
and optional text, binary data and mime type. -/
structure ContentItem : Type where
  type : String
  text : Option String := none
  data : Option String := none
  mimeType : Option String := none
deriving DecidableEq

/-- One entry of the tagged rendering of a content list. A text item whose
text parses renders as an object tagged text holding the parsed value; a text
item whose text does not parse renders as an object tagged text holding the
raw text field; every other item is returned as is. The decoded-JSON type J
is a parameter of the whole normalization model, the parse primitive being
the runtime JSON.parse. -/
inductive TaggedEntry (J : Type) : Type where
  | textJson (j : J)
  | textPlain (t : Option String)
  | raw (c : ContentItem)

/-- The structured output of the execute success path. -/
inductive StructuredOutput (J : Type) : Type where
  | ofJson (j : J)
  | textWrapper (t : String)
  | taggedList (entries : List (TaggedEntry J))

/-- The per-item mapping of the multi-item branch of formatContentAsData:
JSON.parse is attempted on the text of text items (on the empty string when
the text field is falsy, which always fails in the runtime) with the raw text
as fallback; non-text items pass through. -/
def tagContentItem {J : Type} (jsonParse : String → Option J)
    (c : ContentItem) : TaggedEntry J :=
  if c.type = "text" then
    match jsonParse (c.text.getD "") with
    | some j => .textJson j
    | none => .textPlain c.text
  else .raw c

/-- Model of formatContentAsData: when the content list is exactly one text
item with truthy (present, non-empty) text, that text is JSON-parsed, a
success returning the decoded value and a failure returning an object wrapping
the exact text; every other shape maps each item through tagContentItem. -/
def formatContentAsData {J : Type} (jsonParse : String → Option J)
    (content : List ContentItem) : StructuredOutput J :=
  match content with
  | [item] =>
    if item.type = "text" then
      match item.text with
      | some t =>
        if t = "" then .taggedList (content.map (tagContentItem jsonParse))
        else
          match jsonParse t with
          | some j => .ofJson j
          | none => .textWrapper t
      | none => .taggedList (content.map (tagContentItem jsonParse))
    else .taggedList (content.map (tagContentItem jsonParse))
  | _ => .taggedList (content.map (tagContentItem jsonParse))

/-- The data selection of the execute success path: the structured payload
when present (the payload is an object, hence truthy; an absent payload is
undefined, hence falsy), otherwise formatContentAsData of the content list. -/
def normalizeResult {J : Type} (jsonParse : String → Option J)
    (structuredContent : Option J) (content : List ContentItem) :
    StructuredOutput J :=
  match structuredContent with
  | some payload => .ofJson payload
  | none => formatContentAsData jsonParse content

/-- True exactly on the content shape the single-text branch of
formatContentAsData accepts: one item, of type text, with truthy text. -/
def isSingleTruthyText (content : List ContentItem) : Bool :=
  match content with
  | [item] =>
    item.type == "text"
      && (match item.text with
          | some t => t != ""
          | none => false)
  | _ => false

/-! ## Theorems -/

/-- C1: withConnection first connects, then runs the operation, and always
closes afterwards, whatever the operation did; the outcome of the operation is
returned or propagated unchanged, and a close-time transport error (swallowed
inside clientClose) is never substituted for it. When connect itself fails,
close still runs and the connect error propagates. -/
theorem withConnection_lifecycle {ε α : Type} (opOutcome : Except ε α)
    (connected : Bool) (transportCloseOutcome : Except ε Unit) :
    (withConnection (.ok ()) opOutcome
        (clientClose connected transportCloseOutcome).1 =
      (opOutcome,
       [SessionEvent.connectCall, SessionEvent.operationRun,
        SessionEvent.closeCall]))
    ∧ (∀ e : ε,
        withConnection (Except.error e) opOutcome
            (clientClose connected transportCloseOutcome).1 =
          (Except.error e, [SessionEvent.connectCall, SessionEvent.closeCall])) := by
  cases connected <;> cases transportCloseOutcome <;>
    simp [withConnection, clientClose, tryFinally]

/-- C2: when the streamable attempt fails with an error classified as a
client-side rejection, exactly one SSE fallback attempt is made, against the
same URL and headers, before any outcome is surfaced; when the failure is not
classified as client-side, no fallback attempt is made and the original error
is surfaced unchanged. -/
theorem httpConnect_fallback (config : HttpConfigModel)
    (streamableError : JsThrown) (sseOutcome : Except JsThrown Unit) :
    (isClientError streamableError = true →
      (httpConnect config (.error streamableError) sseOutcome).2 =
        [⟨.streamableHttp, config.url, config.headers⟩,
         ⟨.sse, config.url, config.headers⟩])
    ∧ (isClientError streamableError = false →
      httpConnect config (.error streamableError) sseOutcome =
        (.error streamableError,
         [⟨.streamableHttp, config.url, config.headers⟩])) := by
  constructor
  · intro h
    cases sseOutcome <;> simp [httpConnect, h]
  · intro h
    simp [httpConnect, h]

/-- Closed instantiation of httpConnect_fallback: a client-classified failure
(message mentioning an HTTP 405 status) triggers exactly one SSE attempt, and a
plain network failure is surfaced with no fallback. -/
theorem httpConnect_fallback_witness :
    ((httpConnect ⟨"https://example.com/mcp", none⟩
        (.error (.errObj "Error POSTing to endpoint (HTTP 405)")) (.ok ())).2 =
      [⟨.streamableHttp, "https://example.com/mcp", none⟩,
       ⟨.sse, "https://example.com/mcp", none⟩])
    ∧ (httpConnect ⟨"https://example.com/mcp", none⟩
        (.error (.errObj "fetch failed: network unreachable")) (.ok ()) =
      (.error (.errObj "fetch failed: network unreachable"),
       [⟨.streamableHttp, "https://example.com/mcp", none⟩])) := by
  refine ⟨?_, ?_⟩
  · exact (httpConnect_fallback ⟨"https://example.com/mcp", none⟩
      (.errObj "Error POSTing to endpoint (HTTP 405)") (.ok ())).1 (by decide)
  · exact (httpConnect_fallback ⟨"https://example.com/mcp", none⟩
      (.errObj "fetch failed: network unreachable") (.ok ())).2 (by decide)

/-- C5 counterexample: when both attempts fail, the surfaced error interpolates
only the streamable error message; the SSE error message is absent from it, so
the combined error does not carry the failure information of both attempts. -/
theorem httpConnect_combined_error_counterexample :
    (httpConnect ⟨"https://example.com/mcp", none⟩
        (.error (.errObj "Error POSTing to endpoint (HTTP 405)"))
        (.error (.errObj "SSE error: Non-200 status code (500)"))).1 =
      .error (.errObj
        "Failed to connect with both Streamable HTTP and SSE: Error POSTing to endpoint (HTTP 405)")
    ∧ strIncludes
        "Failed to connect with both Streamable HTTP and SSE: Error POSTing to endpoint (HTTP 405)"
        "SSE error: Non-200 status code (500)" = false := by
  constructor
  · rfl
  · decide

/-- C5 amended: when both attempts fail, the single surfaced error is the fixed
combined message naming both transports with only the streamable error
interpolated; it is the same whatever the SSE error was. -/
theorem httpConnect_combined_error (config : HttpConfigModel)
    (streamableError sseError : JsThrown)
    (h : isClientError streamableError = true) :
    (httpConnect config (.error streamableError) (.error sseError)).1 =
      .error (.errObj ("Failed to connect with both Streamable HTTP and SSE: "
        ++ jsThrownText streamableError)) := by
  simp [httpConnect, h, combinedConnectError]

/-- Closed instantiation of httpConnect_combined_error at a concrete pair of
failures. -/
theorem httpConnect_combined_error_witness :
    (httpConnect ⟨"https://example.com/mcp", some [("Authorization", "Bearer t")]⟩
        (.error (.errObj "HTTP 404 Not Found"))
        (.error (.other "boom"))).1 =
      .error (.errObj
        ("Failed to connect with both Streamable HTTP and SSE: "
          ++ jsThrownText (.errObj "HTTP 404 Not Found"))) :=
  httpConnect_combined_error
    ⟨"https://example.com/mcp", some [("Authorization", "Bearer t")]⟩
    (.errObj "HTTP 404 Not Found") (.other "boom") (by decide)

/-- Appending strings appends their character data. -/
theorem strDataAppend (s t : String) : (s ++ t).data = s.data ++ t.data := by
  cases s; cases t; rfl

/-- Strings with equal character data are equal. -/
theorem strExt {s t : String} (h : s.data = t.data) : s = t := by
  cases s; cases t; exact congrArg String.mk h

/-- The sanitizer keeps a name made only of safe characters unchanged. -/
theorem mapSanitizeId (l : List Char) (h : ∀ c ∈ l, isSafeChar c = true) :
    l.map sanitizeChar = l := by
  induction l with
  | nil => rfl
  | cons c rest ih =>
    have hc := h c (List.mem_cons_self c rest)
    simp [sanitizeChar, hc, ih fun x hx => h x (List.mem_cons_of_mem c hx)]

/-- sanitizeName is the identity on names made only of safe characters. -/
theorem sanitizeNameId (s : String) (h : ∀ c ∈ s.data, isSafeChar c = true) :
    sanitizeName s = s := by
  cases s with
  | mk data => exact congrArg String.mk (mapSanitizeId data h)

/-- C9 counterexample: two distinct server identities whose cache entries are
persisted at the same filesystem path, so the transform from identity to cache
file name is not injective. -/
theorem getCacheFilePath_injective_counterexample :
    getCacheFilePath "cfg" "a.b" = getCacheFilePath "cfg" "a_b"
    ∧ "a.b" ≠ "a_b" := by
  exact ⟨rfl, by decide⟩

/-- C9 amended: on server identities made only of filesystem-safe characters
(ASCII letters, digits, underscore, hyphen) the transform to a cache file path
is injective; identities that differ only in characters outside that class can
collide after sanitization. -/
theorem getCacheFilePath_injective_on_safe (configDir : String) (s₁ s₂ : String)
    (h₁ : ∀ c ∈ s₁.data, isSafeChar c = true)
    (h₂ : ∀ c ∈ s₂.data, isSafeChar c = true)
    (heq : getCacheFilePath configDir s₁ = getCacheFilePath configDir s₂) :
    s₁ = s₂ := by
  simp only [getCacheFilePath, getCacheDir] at heq
  rw [sanitizeNameId s₁ h₁, sanitizeNameId s₂ h₂] at heq
  have hd := congrArg String.data heq
  simp only [strDataAppend, List.append_assoc] at hd
  have hd₁ := List.append_cancel_left hd
  have hd₂ := List.append_cancel_left hd₁
  have hd₃ := List.append_cancel_left hd₂
  exact strExt (List.append_cancel_right hd₃)

/-- Closed instantiation of getCacheFilePath_injective_on_safe on a concrete
identity made of safe characters. -/
theorem getCacheFilePath_injective_on_safe_witness : "my-server_2" = "my-server_2" :=
  getCacheFilePath_injective_on_safe "cfg" "my-server_2" "my-server_2"
    (by decide) (by decide) rfl

/-- C3: with caching enabled and a well-formed persisted entry, getCachedTools
returns the cached tools and leaves the filesystem alone while the entry age is
below the TTL; once the age reaches the TTL it returns none, the entry file is
gone afterwards, and an immediately following getCachedTools for the same
server finds no persisted entry and changes nothing. -/
theorem getCachedTools_ttl (settings : CliSettings) (configDir : String)
    (now t : Int) (fs : FileSystem) (serverName : String)
    (tools : List ToolModel)
    (hen : settings.cacheEnabled = true)
    (hfs : fs (getCacheFilePath configDir serverName) =
      some (.parsedObj (some t) (some tools))) :
    (now - t < settings.cacheTtlMs →
      getCachedTools settings configDir now fs serverName = (some tools, fs))
    ∧ (settings.cacheTtlMs ≤ now - t →
      (getCachedTools settings configDir now fs serverName).1 = none
      ∧ (getCachedTools settings configDir now fs serverName).2
          (getCacheFilePath configDir serverName) = none
      ∧ getCachedTools settings configDir now
          (getCachedTools settings configDir now fs serverName).2 serverName =
        (none, (getCachedTools settings configDir now fs serverName).2)) := by
  constructor
  · intro hlt
    simp [getCachedTools, hen, hfs, isCacheValid, hlt]
  · intro hge
    have hnlt : ¬ now - t < settings.cacheTtlMs := not_lt.mpr hge
    simp [getCachedTools, hen, hfs, isCacheValid, hnlt, fsRemove]

/-- Closed instantiation of getCachedTools_ttl with TTL 1000: a read at 500
returns the tools, a read at 1500 misses, deletes the entry, and a second read
at 1500 still misses with nothing further changed. -/
theorem getCachedTools_ttl_witness :
    (getCachedTools ⟨true, 1000⟩ "cfg" 500 fsAlpha "alpha" =
      (some toolsAlpha, fsAlpha))
    ∧ ((getCachedTools ⟨true, 1000⟩ "cfg" 1500 fsAlpha "alpha").1 = none
      ∧ (getCachedTools ⟨true, 1000⟩ "cfg" 1500 fsAlpha "alpha").2
          (getCacheFilePath "cfg" "alpha") = none
      ∧ getCachedTools ⟨true, 1000⟩ "cfg" 1500
          (getCachedTools ⟨true, 1000⟩ "cfg" 1500 fsAlpha "alpha").2 "alpha" =
        (none, (getCachedTools ⟨true, 1000⟩ "cfg" 1500 fsAlpha "alpha").2)) := by
  constructor
  · exact (getCachedTools_ttl ⟨true, 1000⟩ "cfg" 500 0 fsAlpha "alpha"
      toolsAlpha rfl rfl).1 (by decide)
  · exact (getCachedTools_ttl ⟨true, 1000⟩ "cfg" 1500 0 fsAlpha "alpha"
      toolsAlpha rfl rfl).2 (by decide)

/-- C4 counterexample theorem. -/
theorem getCachedTools_corrupt_counterexample :
    (getCachedTools ⟨true, 1000⟩ "cfg" 100 fsMissingTools "alpha").1 = none
    ∧ (getCachedTools ⟨true, 1000⟩ "cfg" 100 fsMissingTools "alpha").2
        (getCacheFilePath "cfg" "alpha") = some (.parsedObj (some 0) none) := by
  exact ⟨rfl, rfl⟩

/-- C4 amended: unparsable entries, entries whose parsed value has no readable
fields, and entries whose cachedAt field is missing or non-numeric are
recovered locally: reported absent and deleted, with no exception surfaced to
the caller (getCachedTools is total in the model, matching the catch blocks in
the source); an entry that parses with a fresh numeric cachedAt but a missing
tools field is reported absent without deletion. -/
theorem getCachedTools_corrupt (settings : CliSettings) (configDir : String)
    (now : Int) (fs : FileSystem) (serverName : String) (c : CacheFileContent)
    (hen : settings.cacheEnabled = true)
    (hfs : fs (getCacheFilePath configDir serverName) = some c)
    (hc : c = .parseThrows ∨ c = .parsedNull
      ∨ ∃ tools, c = .parsedObj none tools) :
    (getCachedTools settings configDir now fs serverName).1 = none
    ∧ (getCachedTools settings configDir now fs serverName).2
        (getCacheFilePath configDir serverName) = none := by
  rcases hc with h | h | ⟨tools, h⟩ <;> subst h <;>
    simp [getCachedTools, hen, hfs, isCacheValid, fsRemove]

/-- Closed instantiation of getCachedTools_corrupt on an unparsable entry. -/
theorem getCachedTools_corrupt_witness :
    (getCachedTools ⟨true, 1000⟩ "cfg" 100 fsCorruptAlpha "alpha").1 = none
    ∧ (getCachedTools ⟨true, 1000⟩ "cfg" 100 fsCorruptAlpha "alpha").2
        (getCacheFilePath "cfg" "alpha") = none :=
  getCachedTools_corrupt ⟨true, 1000⟩ "cfg" 100 fsCorruptAlpha "alpha"
    .parseThrows rfl rfl (Or.inl rfl)

/-- C10: with caching globally disabled, getCachedTools reports a miss for
every server and leaves the filesystem untouched, whatever is persisted; and
for a well-formed still-fresh persisted entry, re-running with caching enabled
at the same TTL returns the entry again. -/
theorem getCachedTools_disabled (settings : CliSettings) (configDir : String)
    (now : Int) (fs : FileSystem) (serverName : String)
    (hdis : settings.cacheEnabled = false) :
    getCachedTools settings configDir now fs serverName = (none, fs)
    ∧ (∀ (t : Int) (tools : List ToolModel),
        fs (getCacheFilePath configDir serverName) =
          some (.parsedObj (some t) (some tools)) →
        now - t < settings.cacheTtlMs →
        getCachedTools ⟨true, settings.cacheTtlMs⟩ configDir now fs serverName =
          (some tools, fs)) := by
  constructor
  · simp [getCachedTools, hdis]
  · intro t tools hfs hlt
    simp [getCachedTools, hfs, isCacheValid, hlt]

/-- Closed instantiation of getCachedTools_disabled: with caching off the
fresh alpha entry is invisible but intact, and flipping caching on within the
TTL makes it visible again. -/
theorem getCachedTools_disabled_witness :
    getCachedTools ⟨false, 1000⟩ "cfg" 500 fsAlpha "alpha" = (none, fsAlpha)
    ∧ getCachedTools ⟨true, 1000⟩ "cfg" 500 fsAlpha "alpha" =
        (some toolsAlpha, fsAlpha) := by
  have h := getCachedTools_disabled ⟨false, 1000⟩ "cfg" 500 fsAlpha "alpha" rfl
  exact ⟨h.1, h.2 0 toolsAlpha rfl (by decide)⟩

/-- Indexing lemma for mapWithIndex. -/
theorem mapWithIndex_get? {α β : Type} (f : Nat → α → β) :
    ∀ (start i : Nat) (l : List α),
      (mapWithIndex f start l).get? i = (l.get? i).map (f (start + i))
  | _, _, [] => by simp [mapWithIndex]
  | start, 0, a :: rest => by simp [mapWithIndex]
  | start, i + 1, a :: rest => by
    have h : start + (i + 1) = start + 1 + i := by omega
    simp only [mapWithIndex, List.get?]
    rw [mapWithIndex_get? f (start + 1) i rest, h]

/-- The required flag of a converted property: false whenever the property
supplies a default, the declared required-ness otherwise. -/
theorem jsonSchemaPropertyToOptionDef_required (key : String)
    (prop : JsonSchemaProperty) (isRequired : Bool) (order : Nat) :
    (jsonSchemaPropertyToOptionDef key prop isRequired order).required =
      (prop.defaultVal.isNone && isRequired) := by
  cases hd : prop.defaultVal <;>
    simp only [jsonSchemaPropertyToOptionDef, hd] <;>
    (repeat' split) <;> simp

/-- C6: a schema property that supplies a default value converts to a
parameter with required false, whatever the declared required list says; the
converted entry sits in the schema at the same position and under the same
key as the source property. -/
theorem toolToOptionSchema_default_not_required (tool : ToolModel)
    (inputSchema : InputSchemaModel)
    (properties : List (String × JsonSchemaProperty)) (i : Nat) (key : String)
    (prop : JsonSchemaProperty)
    (hschema : tool.inputSchema = some inputSchema)
    (hprops : inputSchema.properties = some properties)
    (hget : properties.get? i = some (key, prop))
    (hdefault : prop.defaultVal.isSome = true) :
    ∃ od : OptionDef,
      (toolToOptionSchema tool).get? i = some (key, od)
      ∧ od.required = false := by
  refine ⟨jsonSchemaPropertyToOptionDef key prop
    ((inputSchema.required.getD []).contains key) i, ?_, ?_⟩
  · simp only [toolToOptionSchema, hschema, hprops]
    rw [mapWithIndex_get?, hget]
    simp
  · rw [jsonSchemaPropertyToOptionDef_required]
    cases hd : prop.defaultVal with
    | none => rw [hd] at hdefault; simp at hdefault
    | some d => simp [hd]

/-- Closed instantiation of toolToOptionSchema_default_not_required on
toolWithDefault. -/
theorem toolToOptionSchema_default_not_required_witness :
    ∃ od : OptionDef,
      (toolToOptionSchema toolWithDefault).get? 0 = some ("count", od)
      ∧ od.required = false :=
  toolToOptionSchema_default_not_required toolWithDefault
    { properties := some
        [("count",
          { type := some (.inl "number"), defaultVal := some (.numv (.int 5)) })]
      required := some ["count"] }
    [("count",
      { type := some (.inl "number"), defaultVal := some (.numv (.int 5)) })]
    0 "count"
    { type := some (.inl "number"), defaultVal := some (.numv (.int 5)) }
    rfl rfl rfl rfl

/-- A key absent from the input record is absent from the output of
parseOptionValues. -/
theorem parseOptionValues_key_subset (parseFloat : String → JsNumber)
    (schema : List (String × OptionDef)) (key : String) :
    ∀ values : List (String × JsVal),
      key ∉ values.map Prod.fst →
      List.lookup key (parseOptionValues parseFloat schema values) = none
  | [], _ => rfl
  | (k, v) :: rest, hout => by
    have hk : key ≠ k := fun h => hout (by simp [h])
    have hrest : key ∉ rest.map Prod.fst := fun h => hout (by simp [h])
    have ih := parseOptionValues_key_subset parseFloat schema key rest hrest
    have hbeq : (key == k) = false := beq_eq_false_iff_ne.mpr hk
    cases v <;> simp [parseOptionValues, List.lookup, hbeq, ih]

/-- C7: for every raw-values record without repeated keys, every schema and
every key supplied as undefined or null, the output of parseOptionValues has
no binding for that key, whatever the declared parameter type for it was. -/
theorem parseOptionValues_omits_absent (parseFloat : String → JsNumber)
    (schema : List (String × OptionDef)) (key : String) (v : JsVal) :
    ∀ values : List (String × JsVal),
      (values.map Prod.fst).Nodup →
      (key, v) ∈ values →
      (v = .undef ∨ v = .nullv) →
      List.lookup key (parseOptionValues parseFloat schema values) = none
  | [], _, hmem, _ => absurd hmem (List.not_mem_nil _)
  | (k, w) :: rest, hnodup, hmem, hv => by
    have hnodup' : (rest.map Prod.fst).Nodup := (List.nodup_cons.mp hnodup).2
    have hknotin : k ∉ rest.map Prod.fst := (List.nodup_cons.mp hnodup).1
    rcases List.mem_cons.mp hmem with hhead | htail
    · injection hhead with hk hw
      subst hk
      subst hw
      rcases hv with h | h <;> subst h <;>
        simpa [parseOptionValues] using
          parseOptionValues_key_subset parseFloat schema key rest hknotin
    · have hkne : key ≠ k := by
        intro h
        subst h
        exact hknotin (List.mem_map.mpr ⟨(key, v), htail, rfl⟩)
      have hbeq : (key == k) = false := beq_eq_false_iff_ne.mpr hkne
      have ih := parseOptionValues_omits_absent parseFloat schema key v rest
        hnodup' htail hv
      cases w <;> simp [parseOptionValues, List.lookup, hbeq, ih]

/-- Closed instantiation of parseOptionValues_omits_absent: a record binding
one key to null and another to undefined, against a schema declaring one of
them numeric, yields an output with no binding for either. -/
theorem parseOptionValues_omits_absent_witness :
    List.lookup "a"
        (parseOptionValues (fun _ => .nonInt "NaN")
          [("a", { type := .number, description := "d", required := true,
                   order := 0 })]
          [("a", .nullv), ("b", .undef), ("c", .strv "x")]) = none
    ∧ List.lookup "b"
        (parseOptionValues (fun _ => .nonInt "NaN")
          [("a", { type := .number, description := "d", required := true,
                   order := 0 })]
          [("a", .nullv), ("b", .undef), ("c", .strv "x")]) = none := by
  constructor
  · exact parseOptionValues_omits_absent (fun _ => .nonInt "NaN")
      [("a", { type := .number, description := "d", required := true,
               order := 0 })]
      "a" .nullv [("a", .nullv), ("b", .undef), ("c", .strv "x")]
      (by decide) (by simp) (Or.inr rfl)
  · exact parseOptionValues_omits_absent (fun _ => .nonInt "NaN")
      [("a", { type := .number, description := "d", required := true,
               order := 0 })]
      "b" .undef [("a", .nullv), ("b", .undef), ("c", .strv "x")]
      (by decide) (by simp) (Or.inl rfl)

/-- C8 counterexample: a call result without structured payload whose content
is exactly one text item with empty text. The empty string is not parseable
(the runtime JSON.parse throws on it, modelled by a parse primitive returning
none on every input, in particular on the empty string), so the claim demands
the wrapper holding the empty text; but the truthiness guard on the text field
sends this shape to the map branch, and the output is the tagged-list
rendering of the single item, not the wrapper. -/
theorem normalizeResult_empty_text_counterexample :
    ((fun _ => (none : Option Nat)) "" = none)
    ∧ normalizeResult (fun _ => (none : Option Nat)) none
        [⟨"text", some "", none, none⟩] =
      .taggedList [.textPlain (some "")]
    ∧ normalizeResult (fun _ => (none : Option Nat)) none
        [⟨"text", some "", none, none⟩] ≠
      .textWrapper "" := by
  refine ⟨rfl, rfl, ?_⟩
  intro h
  exact StructuredOutput.noConfusion h

/-- C8 amended: a structured payload passes through unchanged whatever the
content is; a single text item whose text is non-empty and JSON-parses
normalizes to exactly the decoded value; a single text item whose text is
non-empty and does not parse normalizes to the wrapper holding that exact
text; and every other content shape, including a single text item whose text
is empty or absent, normalizes to the tagged rendering of all its items, text
entries going through the same parse-with-fallback inside tagContentItem. -/
theorem normalizeResult_roundtrip {J : Type} (jsonParse : String → Option J) :
    (∀ (payload : J) (content : List ContentItem),
      normalizeResult jsonParse (some payload) content = .ofJson payload)
    ∧ (∀ (t : String) (j : J) (dataField mime : Option String),
      t ≠ "" → jsonParse t = some j →
      normalizeResult jsonParse none [⟨"text", some t, dataField, mime⟩] =
        .ofJson j)
    ∧ (∀ (t : String) (dataField mime : Option String),
      t ≠ "" → jsonParse t = none →
      normalizeResult jsonParse none [⟨"text", some t, dataField, mime⟩] =
        .textWrapper t)
    ∧ (∀ content : List ContentItem,
      isSingleTruthyText content = false →
      normalizeResult jsonParse none content =
        .taggedList (content.map (tagContentItem jsonParse))) := by
  refine ⟨fun payload content => rfl, ?_, ?_, ?_⟩
  · intro t j dataField mime ht hp
    simp [normalizeResult, formatContentAsData, ht, hp]
  · intro t dataField mime ht hp
    simp [normalizeResult, formatContentAsData, ht, hp]
  · intro content hshape
    match content with
    | [] => rfl
    | a :: b :: rest => rfl
    | [item] =>
      simp only [isSingleTruthyText, Bool.and_eq_false_imp] at hshape
      by_cases htype : item.type = "text"
      · rcases ht : item.text with _ | t
        · simp [normalizeResult, formatContentAsData, htype, ht]
        · have := hshape (by simp [htype])
          rw [ht] at this
          have hte : t = "" := by simpa using this
          simp [normalizeResult, formatContentAsData, htype, ht, hte]
      · simp [normalizeResult, formatContentAsData, htype]

/-- Closed instantiation of normalizeResult_roundtrip: with a parse primitive
decoding the text 7 to the number seven, a structured payload passes through,
the single-text JSON case decodes, the single-text non-JSON case wraps the
text, and a two-item content list maps to tagged entries. -/
theorem normalizeResult_roundtrip_witness :
    (normalizeResult (fun s => if s = "7" then some 7 else none)
        (some 5) [⟨"text", some "ignored", none, none⟩] = .ofJson 5)
    ∧ (normalizeResult (fun s => if s = "7" then some 7 else none)
        none [⟨"text", some "7", none, none⟩] = .ofJson 7)
    ∧ (normalizeResult (fun s => if s = "7" then some 7 else none)
        none [⟨"text", some "hello", none, none⟩] = .textWrapper "hello")
    ∧ (normalizeResult (fun s => if s = "7" then some 7 else none)
        none [⟨"text", some "7", none, none⟩, ⟨"image", none, some "deadbeef", some "image/png"⟩] =
      .taggedList
        [.textJson 7, .raw ⟨"image", none, some "deadbeef", some "image/png"⟩]) := by
  have h := normalizeResult_roundtrip (J := Nat)
    (fun s => if s = "7" then some 7 else none)
  refine ⟨h.1 5 _, h.2.1 "7" 7 none none (by decide) (by simp), ?_, ?_⟩
  · exact h.2.2.1 "hello" none none (by decide) (by simp)
  · have h4 := h.2.2.2
      [⟨"text", some "7", none, none⟩,
       ⟨"image", none, some "deadbeef", some "image/png"⟩] rfl
    rw [h4]
    rfl

end MyCliPrettier

